import Mathlib

/-!
# Verification of the maps-scraper pipeline

Shallow embedding of the `Damianhch/maps-scraper` repository (files
`scraper.js`, `expand.js`, and the earlier scraper variant) together with
proofs about the embedded functions.

Strings are processed through their underlying character lists
(`String.data`) with structural-recursive helpers, mirroring the JavaScript
string operations (`includes`, `split`, `trim`, `toLowerCase`) used by the
source.  The WHATWG `new URL(...)` platform primitive is modelled by
`parseURL` for the absolute `http`/`https` URL forms the scraper feeds it:
scheme marker, then authority up to the first `/`, `?` or `#`, user-info
stripped at the last `@`, port stripped at the first `:`; parse failure is
`none` (the source's thrown exception, caught by the caller).
-/

namespace MapsScraper

/-- JavaScript `needle.isPrefix-like` check: does the second list start with
the first? (Model of `String.prototype.startsWith` restricted to what the
embedding needs.) -/
def listStartsWith : List Char → List Char → Bool
  | [], _ => true
  | _ :: _, [] => false
  | p :: ps, h :: hs => p = h && listStartsWith ps hs

/-- JavaScript `hay.includes(pat)`: substring containment on character
lists. -/
def listContainsSub (pat : List Char) : List Char → Bool
  | [] => listStartsWith pat []
  | c :: hs => listStartsWith pat (c :: hs) || listContainsSub pat hs

/-- JavaScript `s.split(sep)` for a single-character separator. -/
def splitOnChar (sep : Char) : List Char → List (List Char)
  | [] => [[]]
  | c :: cs =>
    let rest := splitOnChar sep cs
    if c = sep then [] :: rest
    else
      match rest with
      | [] => [[c]]
      | r :: rs => (c :: r) :: rs

/-- JavaScript `s.toLowerCase()` (ASCII case folding, which is all the
source's hostnames and deny-list entries exercise). -/
def lowerChars (cs : List Char) : List Char := cs.map Char.toLower

/-- The hostname component produced by the URL parser model. -/
structure URLObj where
  hostname : String
  deriving DecidableEq

/-- Model of the platform `new URL(url)` for the scraper's inputs: accepts
`http://` / `https://` absolute URLs, extracts the authority (up to the
first `/`, `?` or `#`), drops user-info (up to the last `@`) and a port
(from the first `:`); anything else fails to parse (`none`, standing for
the thrown `TypeError` the source catches). -/
def parseURL (url : String) : Option URLObj :=
  let cs := url.data
  let rest? : Option (List Char) :=
    if listStartsWith "https://".data cs then some (cs.drop 8)
    else if listStartsWith "http://".data cs then some (cs.drop 7)
    else none
  match rest? with
  | none => none
  | some rest =>
    let authority := rest.takeWhile (fun c => ¬ (c = '/' ∨ c = '?' ∨ c = '#'))
    if authority.isEmpty then none
    else
      let afterUser := ((splitOnChar '@' authority).getLast?).getD authority
      let host := afterUser.takeWhile (fun c => c ≠ ':')
      if host.isEmpty then none else some ⟨String.mk host⟩

/-- The deny-list of `scraper.js` lines 179-211 (identical in the earlier
scraper variant): domains that are NOT real business websites. -/
def nonBusinessDomains : List String :=
  [ "wolt.com"
  , "foodora.no"
  , "just-eat.no"
  , "uber.com"
  , "doordash.com"
  , "grubhub.com"
  , "deliveroo.com"
  , "google.com"
  , "google.no"
  , "googlemaps.com"
  , "maps.google.com"
  , "facebook.com"
  , "instagram.com"
  , "tripadvisor.com"
  , "yelp.com"
  , "foursquare.com"
  , "zomato.com"
  , "opentable.com"
  , "resy.com"
  , "bookatable.com"
  , "thefork.com"
  , "tiktok.com"
  , "youtube.com"
  , "pinterest.com"
  , "snapchat.com"
  , "linkedin.com"
  , "twitter.com"
  , "booking.resdiary.com"
  , "booking.gastroplanner.no"
  , "resdiary.com"
  , "gastroplanner.no" ]

/-- The `mainDomain` computation of `scraper.js` lines 229-235: both
branches of the source's `if` compute the last two dot-separated labels
(the source keeps a redundant `www` test whose two arms are identical). -/
def mainDomainOf (domainParts : List (List Char)) : List Char :=
  if (domainParts.headD []) = "www".data ∧ 3 ≤ domainParts.length then
    (domainParts.getD (domainParts.length - 2) []) ++ ['.'] ++
      (domainParts.getD (domainParts.length - 1) [])
  else
    (domainParts.getD (domainParts.length - 2) []) ++ ['.'] ++
      (domainParts.getD (domainParts.length - 1) [])

/-- `scraper.js` lines 173-249 (= earlier variant lines 5-81):
`isRealBusinessWebsite(url)`.  The unused `businessName` parameter is
omitted. -/
def isRealBusinessWebsite (url : String) : Bool :=
  if url = "" ∨ url = "Not found" then false
  else
    match parseURL url with
    | none => false
    | some urlObj =>
      let domain := lowerChars urlObj.hostname.data
      if nonBusinessDomains.any (fun d => listContainsSub d.data domain) then
        false
      else if listContainsSub ".".data domain
              ∧ ¬ listContainsSub "google".data domain
              ∧ ¬ listContainsSub "facebook".data domain
              ∧ ¬ listContainsSub "instagram".data domain then
        let domainParts := splitOnChar '.' domain
        if 2 ≤ domainParts.length then
          let mainDomain := mainDomainOf domainParts
          if nonBusinessDomains.any (fun d => listContainsSub d.data mainDomain) then
            false
          else
            true
        else false
      else false

/-- `scraper.js` lines 252-264 (= earlier variant lines 84-96):
`cleanWebsiteUrl(url)`. -/
def cleanWebsiteUrl (url : String) : String :=
  if url = "" ∨ url = "Not found" then ""
  else if isRealBusinessWebsite url then url
  else ""

/-! ## Listing discovery (`scraper.js` lines 663-826)

The scrolling loop.  Browser side effects (delays, wheel/keyboard
stimulus, debug captures) have no observable state and are dropped; the
DOM query of attempt `a` is modelled by an oracle `snap a` returning the
hrefs collected by the link selectors on that attempt (already normalized
to absolute URLs, as the page-side script does).  A per-attempt DOM-query
failure behaves as in the source's `catch`: no accumulator or counter
update for that attempt; the model's oracle always answers, which covers
the failure-free executions the claims are about. -/

/-- The page-side dedup `if (!urls.includes(fullUrl)) urls.push(fullUrl)`:
keep the first occurrence of each URL. -/
def pushUnique (urls : List String) (u : String) : List String :=
  if urls.contains u then urls else urls ++ [u]

/-- Deduplicate a snapshot's href list keeping first occurrences. -/
def dedupKeepFirst (l : List String) : List String := l.foldl pushUnique []

/-- Observable outcome of the scrolling loop: `urls` is the accumulated
`allBusinessUrls` set in insertion order, `pageDownAttempts` the counter's
final value, `stoppedEarly` whether the 3-stagnation `break` fired,
`aggressiveAt` the attempt indices at which the `noNewResultsCount === 2`
aggressive-scroll branch ran, `queriesMade` how many DOM snapshots were
taken. -/
structure DiscoverResult where
  urls : List String
  pageDownAttempts : Nat
  stoppedEarly : Bool
  aggressiveAt : List Nat
  queriesMade : Nat
  deriving DecidableEq

/-- The `while (pageDownAttempts < maxPageDowns)` loop body, fuelled by the
remaining attempt budget (`fuel = maxPageDowns - pageDownAttempts`).
`a` is `pageDownAttempts`, `p` is `previousUrlCount`, `n` is
`noNewResultsCount`, `acc` is `allBusinessUrls`. -/
def discoverGo (snap : Nat → List String) :
    Nat → Nat → Nat → Nat → List String → List Nat → DiscoverResult
  | 0, a, _, _, acc, ag => ⟨acc, a, false, ag, a⟩
  | fuel + 1, a, p, n, acc, ag =>
    let currentUrls := dedupKeepFirst (snap a)
    let newUrls := currentUrls.filter (fun u => ¬ acc.contains u)
    let acc2 := acc ++ newUrls
    if acc2.length = p then
      let n2 := n + 1
      if 3 ≤ n2 then ⟨acc2, a, true, ag, a + 1⟩
      else
        let ag2 := if n2 = 2 then ag ++ [a] else ag
        discoverGo snap fuel (a + 1) acc2.length n2 acc2 ag2
    else
      discoverGo snap fuel (a + 1) acc2.length 0 acc2 ag

/-- The scrolling loop entry: counters start at zero, the accumulator
empty, and the attempt budget is `maxPageDowns`. -/
def discover (snap : Nat → List String) (maxPageDowns : Nat) : DiscoverResult :=
  discoverGo snap maxPageDowns 0 0 0 [] []

/-! ## Per-listing retention (`scraper.js` lines 1401-1443) -/

/-- The raw fields the extractor produced for one listing (each field
already defaulted to its sentinel by the extraction cascade). -/
structure ExtractedFields where
  businessName : String
  address : String
  website : String
  phone : String
  rating : String
  hours : String
  priceLevel : String
  deriving DecidableEq

/-- One persisted output record (columns of the Results sheet minus the
`Industry` column which the orchestrator adds). -/
structure BusinessRecord where
  Name : String
  Address : String
  Website : String
  Phone : String
  Email : String
  ContactPerson : String
  BusinessPhone : String
  Rating : String
  Hours : String
  PriceLevel : String
  deriving DecidableEq

/-- JavaScript `x || ''` on a string: empty stays empty, anything else is
kept. -/
def jsOrEmpty (s : String) : String := if s = "" then "" else s

/-- The retain/discard decision and record construction of
`scrapeGoogleMaps` lines 1401-1443: a business with a real website is
skipped (`continue`), otherwise a record is pushed with the cleaned
website and sentinel enrichment columns. -/
def processListing (e : ExtractedFields) : Option BusinessRecord :=
  let hasRealWebsite := isRealBusinessWebsite e.website
  if hasRealWebsite then none
  else
    let cleanedWebsite := cleanWebsiteUrl e.website
    let email := "Not found"
    some
      { Name := e.businessName
      , Address := jsOrEmpty e.address
      , Website := jsOrEmpty cleanedWebsite
      , Phone := jsOrEmpty e.phone
      , Email := jsOrEmpty email
      , ContactPerson := "Not found"
      , BusinessPhone := "Not found"
      , Rating := jsOrEmpty e.rating
      , Hours := jsOrEmpty e.hours
      , PriceLevel := jsOrEmpty e.priceLevel }

/-- The accumulation of `excelData` over the processed listings:
`continue` skips, otherwise push. -/
def collectListings (listings : List ExtractedFields) : List BusinessRecord :=
  listings.filterMap processListing

/-! ## Industry orchestration (`scraper.js` lines 1594-1799)

`scrapeGoogleMaps`'s outcome for retry `r` of industry `i` is modelled by
an oracle `att i r : Except String (List BusinessRecord)` — `.error` for a
thrown exception, `.ok` for a normal return carrying `industryResult.data`
(browser plumbing dropped). -/

/-- `scraper.js` lines 1670-1672: an error message counts as a blocking
error. -/
def isBlockingError (msg : String) : Bool :=
  listContainsSub "blocked".data msg.data
  || listContainsSub "blocking".data msg.data
  || listContainsSub "unusual traffic".data msg.data

/-- One industry's scrape outcomes, indexed by retry number. -/
abbrev ScrapeAttempt := Nat → Except String (List BusinessRecord)

/-- The retry loop of lines 1649-1704 (`maxIndustryRetries = 3`):
`.ok cur` is a normal loop exit with `industryResult = cur` (`none` for
the initial `null`), `.error e` is the line-1698 re-throw after the last
retry.  `fuel` bounds the loop (3 suffices, each pass increments
`industryRetries`). -/
def retryLoop (att : ScrapeAttempt) :
    Nat → Nat → Option (List BusinessRecord) →
    Except String (Option (List BusinessRecord))
  | 0, _, cur => .ok cur
  | fuel + 1, industryRetries, cur =>
    if 3 ≤ industryRetries then .ok cur
    else
      match att industryRetries with
      | .ok data =>
        if 0 < data.length then .ok (some data)
        else if industryRetries < 3 - 1 then
          retryLoop att fuel (industryRetries + 1) (some data)
        else .ok (some data)
      | .error e =>
        let retries2 := industryRetries + 1
        if isBlockingError e ∧ retries2 < 3 then retryLoop att fuel retries2 cur
        else if 3 ≤ retries2 then .error e
        else retryLoop att fuel retries2 cur

/-- One row of the run's timing/analysis data, reduced to the fields the
claims observe. -/
structure TimingEntry where
  industry : String
  error : Option String
  businessesKept : Nat
  deriving DecidableEq

/-- A retained record tagged with its industry (lines 1748-1751). -/
structure RecordWithIndustry where
  record : BusinessRecord
  Industry : String
  deriving DecidableEq

/-- Observable outcome of `processAllIndustries`' main loop. -/
structure OrchestratorRun where
  allResults : List RecordWithIndustry
  timingData : List TimingEntry
  deriving DecidableEq

/-- The per-industry `for` body of lines 1626-1798.  The zero-result check
of lines 1706-1739 pushes an error timing entry and throws; the throw —
like every other error of the `try` block — is caught by the line-1767
`catch`, which pushes a second error entry and falls through to the next
industry ("Continue with next industry even if one fails").  The function
is therefore total: no exception escapes the loop. -/
def orchestratorGo (att : Nat → ScrapeAttempt) :
    Nat → List String → List RecordWithIndustry × List TimingEntry
  | _, [] => ([], [])
  | idx, industry :: rest =>
    let body : List TimingEntry × Except String (List BusinessRecord) :=
      match retryLoop (att idx) 3 0 none with
      | .error e => ([], .error e)
      | .ok none =>
        ([⟨industry, some "No results after retries", 0⟩],
         .error ("No results collected for industry: " ++ industry ++ ". Process stopped."))
      | .ok (some data) =>
        if data.length = 0 then
          ([⟨industry, some "No results after retries", 0⟩],
           .error ("No results collected for industry: " ++ industry ++ ". Process stopped."))
        else ([], .ok data)
    match body with
    | (preEntries, .ok data) =>
      let resultsWithIndustry := data.map (fun r => RecordWithIndustry.mk r industry)
      let timing : TimingEntry := ⟨industry, none, data.length⟩
      let (rs, ts) := orchestratorGo att (idx + 1) rest
      (resultsWithIndustry ++ rs, preEntries ++ [timing] ++ ts)
    | (preEntries, .error e) =>
      let catchEntry : TimingEntry := ⟨industry, some e, 0⟩
      let (rs, ts) := orchestratorGo att (idx + 1) rest
      (rs, preEntries ++ [catchEntry] ++ ts)

/-- `processAllIndustries`: runs the per-industry loop over the whole
industries list.  Because the per-industry `catch` swallows every error,
the loop always completes; the promise resolves and the process takes the
`.then` branch (exit status 0), never the `.catch`/`process.exit(1)`
branch. -/
def processAllIndustries (industries : List String)
    (att : Nat → ScrapeAttempt) : OrchestratorRun :=
  let (rs, ts) := orchestratorGo att 0 industries
  ⟨rs, ts⟩

/-! ## Enrichment pass (`expand.js` lines 532-911)

A workbook row, reduced to the columns the enrichment loop reads or
writes (`Name`, `Contact Person`, `Business Phone`) plus two
representative untouched columns for frame properties.  Rows carry the
canonical column names produced by the scraper (the `|| row['lowercase']`
fallbacks in the source never fire on them). -/
structure Row where
  Name : String
  ContactPerson : String
  BusinessPhone : String
  Website : String
  Phone : String
  deriving DecidableEq

/-- Result of `scrapeProffContactPerson`: both fields default to the
sentinel. -/
structure ContactResult where
  contactPerson : String
  businessPhone : String
  deriving DecidableEq

/-- JavaScript whitespace as exercised by `String.prototype.trim` on this
data (ASCII class). -/
def jsWhitespace (c : Char) : Bool := c = ' ' ∨ c = '\t' ∨ c = '\n' ∨ c = '\r'

/-- JavaScript `s.trim()`. -/
def strTrim (s : String) : String :=
  String.mk (((s.data.dropWhile jsWhitespace).reverse.dropWhile jsWhitespace).reverse)

/-- `expand.js` lines 780-791: skip a business only when the contact
person AND the business phone are both present, not the sentinel, and not
blank. -/
def shouldSkip (business : Row) : Bool :=
  business.ContactPerson != "" && business.ContactPerson != "Not found"
    && strTrim business.ContactPerson != ""
    && business.BusinessPhone != "" && business.BusinessPhone != "Not found"
    && strTrim business.BusinessPhone != ""

/-- Lines 805-806 / 811-812: write the scraped contact person and business
phone into a row. -/
def applyResult (b : Row) (res : ContactResult) : Row :=
  { b with ContactPerson := res.contactPerson, BusinessPhone := res.businessPhone }

/-- JavaScript `Array.prototype.findIndex` (`-1` modelled as `none`). -/
def jsFindIndex (p : Row → Bool) : List Row → Option Nat
  | [] => none
  | r :: rs => if p r then some 0 else (jsFindIndex p rs).map (· + 1)

/-- One iteration of the enrichment `for` loop (lines 780-840) on the
shared `data` array: read `business = data[i]`, skip if both fields
already filled; otherwise scrape (`scrape i`), write the result into the
iterated element, and additionally into `data[findIndex-by-name]` (lines
809-813).  Each non-skip iteration ends with `saveProgress()`, which
persists the whole current `data` array. -/
def enrichIteration (scrape : Nat → ContactResult) (data : List Row) (i : Nat) :
    List Row :=
  match data[i]? with
  | none => data
  | some business =>
    if shouldSkip business then data
    else
      let result := scrape i
      let d1 := data.set i (applyResult business result)
      match jsFindIndex (fun b => b.Name == business.Name) d1 with
      | some j =>
        match d1[j]? with
        | some b2 => d1.set j (applyResult b2 result)
        | none => d1
      | none => d1

/-- The enrichment loop with a stop point: `stop` is the iteration index
at which the `shouldStop` flag (set by an interrupt) is first observed, so
exactly the businesses at indices `< stop` were fully processed.  `fuel`
bounds the loop (`data.length` suffices). -/
def enrichGo (scrape : Nat → ContactResult) (stop : Nat) :
    Nat → List Row → Nat → List Row
  | 0, data, _ => data
  | fuel + 1, data, i =>
    if stop ≤ i then data
    else if data.length ≤ i then data
    else enrichGo scrape stop fuel (enrichIteration scrape data i) (i + 1)

/-- Run the enrichment loop from the start of the data array; the returned
list is the `data` array whose snapshot the last `saveProgress` (or the
shutdown handler's forced save) persisted. -/
def enrichRun (scrape : Nat → ContactResult) (stop : Nat) (rows : List Row) :
    List Row :=
  enrichGo scrape stop rows.length rows 0

/-- Expected shape of the checkpoint after `k` fully processed businesses:
rows at indices `< k` carry the newly scraped values, later rows are the
unmodified originals.  (`i` is the index of the list's head.) -/
def scrapedUpTo (scrape : Nat → ContactResult) (k : Nat) :
    Nat → List Row → List Row
  | _, [] => []
  | i, r :: rs =>
    (if i < k then applyResult r (scrape i) else r) :: scrapedUpTo scrape k (i + 1) rs

/-- The skip-or-overwrite view of one loop body on its own row. -/
def processBusinessRow (b : Row) (res : ContactResult) : Row :=
  if shouldSkip b then b else applyResult b res

/-! ## Graceful shutdown (`expand.js` lines 678-765)

State machine of the signal handler.  Node runs each handler invocation on
the single event loop; `isShuttingDown` is set synchronously before the
first `await`, so a second signal arriving while the first shutdown is in
progress observes the flag.  `shutdownHandler` models one handler
invocation; the oracle `saveOk` tells whether the `saveProgress(true)`
attempt returns a filename (`true`) or `null` (`false`, its internal
`catch` path), in which case the emergency save path runs. -/
structure ShutdownState where
  isShuttingDown : Bool
  progressSaveAttempts : Nat
  emergencySaveAttempts : Nat
  exited : Bool
  deriving DecidableEq

/-- Initial state: no shutdown in progress, no saves attempted. -/
def initialShutdownState : ShutdownState := ⟨false, 0, 0, false⟩

/-- One invocation of `shutdownHandler(signal)`. -/
def shutdownHandler (saveOk : Bool) (s : ShutdownState) : ShutdownState :=
  if s.isShuttingDown then s
  else
    let s1 := { s with isShuttingDown := true }
    let s2 := { s1 with progressSaveAttempts := s1.progressSaveAttempts + 1 }
    let s3 :=
      if saveOk then s2
      else { s2 with emergencySaveAttempts := s2.emergencySaveAttempts + 1 }
    { s3 with exited := true }

/-- Deliver `n` interrupt signals in sequence. -/
def runSignals (saveOk : Bool) : Nat → ShutdownState → ShutdownState
  | 0, s => s
  | n + 1, s => runSignals saveOk n (shutdownHandler saveOk s)

/-- Written from the spec's words, for comparison with the code: the
"registrable main domain" of a hostname is the last two dot-separated
labels of the lowercased hostname after stripping a leading `www`
label. -/
def specRegistrableDomain (hostname : String) : List Char :=
  let parts0 := splitOnChar '.' (lowerChars hostname.data)
  let parts := if parts0.headD [] = "www".data then parts0.tail else parts0
  (parts.getD (parts.length - 2) []) ++ ['.'] ++ (parts.getD (parts.length - 1) [])

/-! ## Helper lemmas -/

lemma listStartsWith_self_append (pat t : List Char) :
    listStartsWith pat (pat ++ t) = true := by
  induction pat with
  | nil => rfl
  | cons c cs ih => simp [listStartsWith, ih]

lemma listContainsSub_of_suffix (pre pat : List Char) :
    listContainsSub pat (pre ++ pat) = true := by
  induction pre with
  | nil =>
    cases pat with
    | nil => rfl
    | cons c cs =>
      have h := listStartsWith_self_append (c :: cs) []
      simp only [List.append_nil] at h
      simp [listContainsSub, h]
  | cons c cs ih => simp [listContainsSub, ih]

lemma splitOnChar_ne_nil (sep : Char) (l : List Char) : splitOnChar sep l ≠ [] := by
  induction l with
  | nil => simp [splitOnChar]
  | cons c cs ih =>
    by_cases h : c = sep
    · simp [splitOnChar, h]
    · cases hr : splitOnChar sep cs with
      | nil => exact absurd hr ih
      | cons r rs => simp [splitOnChar, h, hr]

lemma splitOnChar_length (sep : Char) (l : List Char) :
    (splitOnChar sep l).length = l.count sep + 1 := by
  induction l with
  | nil => simp [splitOnChar]
  | cons c cs ih =>
    by_cases h : c = sep
    · simp [splitOnChar, h, List.count_cons, ih]
    · cases hr : splitOnChar sep cs with
      | nil => exact absurd hr (splitOnChar_ne_nil sep cs)
      | cons r rs =>
        have : (r :: rs).length = cs.count sep + 1 := by rw [← hr]; exact ih
        simp only [List.length_cons] at this
        simp [splitOnChar, h, hr, List.count_cons, this]

lemma mem_of_listContainsSub_singleton {c : Char} {l : List Char}
    (h : listContainsSub [c] l = true) : c ∈ l := by
  induction l with
  | nil => simp [listContainsSub, listStartsWith] at h
  | cons x xs ih =>
    simp only [listContainsSub, listStartsWith, Bool.or_eq_true, Bool.and_eq_true] at h
    rcases h with ⟨hc, _⟩ | h
    · simp only [decide_eq_true_eq] at hc
      exact hc ▸ List.mem_cons_self x xs
    · exact List.mem_cons_of_mem x (ih h)

lemma one_le_count_of_mem {c : Char} {l : List Char} (h : c ∈ l) :
    1 ≤ l.count c := by
  induction l with
  | nil => simp at h
  | cons x xs ih =>
    rcases List.mem_cons.mp h with rfl | h2
    · simp [List.count_cons]
    · have := ih h2
      simp only [List.count_cons]
      omega

lemma parseURL_empty : parseURL "" = none := by decide

lemma parseURL_sentinel : parseURL "Not found" = none := by decide

end MapsScraper

namespace MapsScraper

/-! ## Claim theorems -/

/-- C6: every URL whose (lowercased) hostname ends in a deny-list entry —
so in particular the entry itself, any subdomain of it, and its
`www.`-prefixed variant — is rejected by `isRealBusinessWebsite`, and
`cleanWebsiteUrl` maps it to the empty string. -/
theorem denylisted_url_rejected (u : String) (o : URLObj) (e : String)
    (pre : List Char) (hp : parseURL u = some o) (he : e ∈ nonBusinessDomains)
    (hlow : lowerChars o.hostname.data = pre ++ e.data) :
    isRealBusinessWebsite u = false ∧ cleanWebsiteUrl u = "" := by
  by_cases hs : u = "" ∨ u = "Not found"
  · exact ⟨by simp [isRealBusinessWebsite, hs], by simp [cleanWebsiteUrl, hs]⟩
  · have hany : nonBusinessDomains.any
        (fun d => listContainsSub d.data (lowerChars o.hostname.data)) = true :=
      List.any_eq_true.mpr ⟨e, he, by rw [hlow]; exact listContainsSub_of_suffix pre e.data⟩
    have hfalse : isRealBusinessWebsite u = false := by
      simp [isRealBusinessWebsite, hs, hp, hany]
    exact ⟨hfalse, by simp [cleanWebsiteUrl, hs, hfalse]⟩

/-- Witness for C6: scenario C of the spec, the white-label booking
subdomain `https://booking.resdiary.com/abc123`. -/
theorem denylisted_url_rejected_witness :
    isRealBusinessWebsite "https://booking.resdiary.com/abc123" = false ∧
    cleanWebsiteUrl "https://booking.resdiary.com/abc123" = "" :=
  denylisted_url_rejected "https://booking.resdiary.com/abc123"
    ⟨"booking.resdiary.com"⟩ "resdiary.com" "booking.".data
    (by decide) (by decide) (by decide)

/-- C7: on the empty string, on the sentinel `"Not found"`, and on every
string the URL parser rejects, both classifier functions return their
rejecting values.  Both embeddings are total Lean functions — the source's
only exception source, `new URL`, is modelled by the `parseURL` option and
caught — so no input throws. -/
theorem classifier_total_on_bad_input :
    (isRealBusinessWebsite "" = false ∧ cleanWebsiteUrl "" = "") ∧
    (isRealBusinessWebsite "Not found" = false ∧ cleanWebsiteUrl "Not found" = "") ∧
    (∀ u : String, parseURL u = none →
      isRealBusinessWebsite u = false ∧ cleanWebsiteUrl u = "") := by
  refine ⟨by decide, by decide, fun u hu => ?_⟩
  by_cases hs : u = "" ∨ u = "Not found"
  · exact ⟨by simp [isRealBusinessWebsite, hs], by simp [cleanWebsiteUrl, hs]⟩
  · have hfalse : isRealBusinessWebsite u = false := by
      simp [isRealBusinessWebsite, hs, hu]
    exact ⟨hfalse, by simp [cleanWebsiteUrl, hs, hfalse]⟩

/-- Witness for C7: a concrete malformed URL string. -/
theorem classifier_total_on_bad_input_witness :
    parseURL "not a url" = none ∧
    isRealBusinessWebsite "not a url" = false ∧ cleanWebsiteUrl "not a url" = "" :=
  ⟨by decide, (classifier_total_on_bad_input.2.2 "not a url" (by decide)).1,
    (classifier_total_on_bad_input.2.2 "not a url" (by decide)).2⟩

/-- C2 counterexample: `https://googleshoes.no/` parses, and its
registrable domain (in the spec's sense, `googleshoes.no`) contains no
deny-list entry as a substring, yet the classifier rejects it (the source
additionally rejects any hostname containing `google`, `facebook` or
`instagram` as a bare substring, line 225) and `cleanWebsiteUrl` does not
return the input unchanged. -/
theorem registrable_domain_claim_counterexample :
    parseURL "https://googleshoes.no/" = some ⟨"googleshoes.no"⟩ ∧
    nonBusinessDomains.all
      (fun d => !(listContainsSub d.data (specRegistrableDomain "googleshoes.no"))) = true ∧
    isRealBusinessWebsite "https://googleshoes.no/" = false ∧
    cleanWebsiteUrl "https://googleshoes.no/" = "" := by decide

/-- C2 amended: a parseable URL is accepted by `isRealBusinessWebsite`
(and returned unchanged by `cleanWebsiteUrl`) when its lowercased hostname
contains a dot, contains no deny-list entry as a substring, contains none
of the bare keywords `google`, `facebook`, `instagram` as a substring, and
its registrable main domain (last two dot-separated labels, as the code
computes it) contains no deny-list entry as a substring. -/
theorem clean_hostname_url_accepted (u : String) (o : URLObj)
    (hp : parseURL u = some o)
    (hdot : listContainsSub ".".data (lowerChars o.hostname.data) = true)
    (hdeny : ∀ d ∈ nonBusinessDomains,
      listContainsSub d.data (lowerChars o.hostname.data) = false)
    (hg : listContainsSub "google".data (lowerChars o.hostname.data) = false)
    (hf : listContainsSub "facebook".data (lowerChars o.hostname.data) = false)
    (hi : listContainsSub "instagram".data (lowerChars o.hostname.data) = false)
    (hmain : ∀ d ∈ nonBusinessDomains,
      listContainsSub d.data
        (mainDomainOf (splitOnChar '.' (lowerChars o.hostname.data))) = false) :
    isRealBusinessWebsite u = true ∧ cleanWebsiteUrl u = u := by
  have hne : ¬ (u = "" ∨ u = "Not found") := by
    rintro (rfl | rfl)
    · rw [parseURL_empty] at hp; exact Option.noConfusion hp
    · rw [parseURL_sentinel] at hp; exact Option.noConfusion hp
  have hany : nonBusinessDomains.any
      (fun d => listContainsSub d.data (lowerChars o.hostname.data)) = false := by
    simp only [List.any_eq_false]
    intro d hd
    simp [hdeny d hd]
  have hanyMain : nonBusinessDomains.any
      (fun d => listContainsSub d.data
        (mainDomainOf (splitOnChar '.' (lowerChars o.hostname.data)))) = false := by
    simp only [List.any_eq_false]
    intro d hd
    simp [hmain d hd]
  have hlen : 2 ≤ (splitOnChar '.' (lowerChars o.hostname.data)).length := by
    have hmem : '.' ∈ lowerChars o.hostname.data :=
      mem_of_listContainsSub_singleton (by exact hdot)
    have hcount : 1 ≤ (lowerChars o.hostname.data).count '.' :=
      one_le_count_of_mem hmem
    rw [splitOnChar_length]
    omega
  have htrue : isRealBusinessWebsite u = true := by
    simp [isRealBusinessWebsite, hne, hp, hany, hanyMain, hdot, hg, hf, hi, hlen]
  exact ⟨htrue, by simp [cleanWebsiteUrl, hne, htrue]⟩

/-- Witness for amended C2: scenario B of the spec,
`https://www.joesbakery.no/`. -/
theorem clean_hostname_url_accepted_witness :
    isRealBusinessWebsite "https://www.joesbakery.no/" = true ∧
    cleanWebsiteUrl "https://www.joesbakery.no/" = "https://www.joesbakery.no/" :=
  clean_hostname_url_accepted "https://www.joesbakery.no/" ⟨"www.joesbakery.no"⟩
    (by decide) (by decide) (by decide) (by decide) (by decide) (by decide) (by decide)

/-- C8: `cleanWebsiteUrl` is exactly the boolean gate of
`isRealBusinessWebsite`: the input itself when classified as a business
website, the empty string in every other case — never a third value. -/
theorem cleanWebsiteUrl_gate (u : String) :
    cleanWebsiteUrl u = if isRealBusinessWebsite u then u else "" := by
  by_cases hs : u = "" ∨ u = "Not found"
  · rcases hs with h | h <;> subst h <;> decide
  · simp [cleanWebsiteUrl, hs]

lemma discoverGo_queries_le (snap : Nat → List String) :
    ∀ (fuel a p n : Nat) (acc : List String) (ag : List Nat),
      (discoverGo snap fuel a p n acc ag).queriesMade ≤ a + fuel := by
  intro fuel
  induction fuel with
  | zero => intro a p n acc ag; simp [discoverGo]
  | succ f ih =>
    intro a p n acc ag
    simp only [discoverGo]
    split
    · split
      · show a + 1 ≤ a + (f + 1)
        omega
      · exact le_trans (ih _ _ _ _ _) (by omega)
    · exact le_trans (ih _ _ _ _ _) (by omega)

lemma discover_all_empty (snap : Nat → List String) (m : Nat)
    (he : ∀ i, snap i = []) :
    discover snap (m + 3) = ⟨[], 2, true, [1], 3⟩ := by
  simp [discover, discoverGo, he, dedupKeepFirst]

/-- C5: the discovery loop makes at most `maxPageDowns` DOM queries;
when the accumulated set never grows it stops after the 3rd stagnant
attempt (escalating to aggressive scrolling on the 2nd, attempt index 1);
and on spec scenario D — snapshots {A,B}, {B,C}, then empties, with
budget 10 — it stops early at the 5th query (the 3rd trailing empty
attempt), having escalated on the 4th, with accumulated set [A, B, C]. -/
theorem discover_bounded_and_stagnation :
    (∀ (snap : Nat → List String) (maxPageDowns : Nat),
      (discover snap maxPageDowns).queriesMade ≤ maxPageDowns) ∧
    (∀ (snap : Nat → List String) (maxPageDowns : Nat), 3 ≤ maxPageDowns →
      (∀ i, snap i = []) →
      discover snap maxPageDowns = ⟨[], 2, true, [1], 3⟩) ∧
    discover (fun a => match a with
      | 0 => ["A", "B"] | 1 => ["B", "C"] | _ => []) 10
      = ⟨["A", "B", "C"], 4, true, [3], 5⟩ := by
  refine ⟨fun snap maxA => ?_, fun snap maxA h3 he => ?_, by decide⟩
  · simpa [discover] using discoverGo_queries_le snap maxA 0 0 0 [] []
  · obtain ⟨m, rfl⟩ : ∃ m, maxA = m + 3 := ⟨maxA - 3, by omega⟩
    exact discover_all_empty snap m he

/-- Witness for C5: all-empty snapshots with budget 10 stop after 3
queries. -/
theorem discover_bounded_and_stagnation_witness :
    discover (fun _ => ([] : List String)) 10 = ⟨[], 2, true, [1], 3⟩ :=
  discover_bounded_and_stagnation.2.1 (fun _ => []) 10 (by omega) (fun _ => rfl)

lemma cleanWebsiteUrl_eq_empty_of_not_real {u : String}
    (h : isRealBusinessWebsite u = false) : cleanWebsiteUrl u = "" := by
  by_cases hs : u = "" ∨ u = "Not found"
  · simp [cleanWebsiteUrl, hs]
  · simp [cleanWebsiteUrl, hs, h]

lemma processListing_of_not_real {e : ExtractedFields}
    (h : isRealBusinessWebsite e.website = false) :
    processListing e = some
      { Name := e.businessName, Address := jsOrEmpty e.address,
        Website := "", Phone := jsOrEmpty e.phone, Email := "Not found",
        ContactPerson := "Not found", BusinessPhone := "Not found",
        Rating := jsOrEmpty e.rating, Hours := jsOrEmpty e.hours,
        PriceLevel := jsOrEmpty e.priceLevel } := by
  simp [processListing, h, cleanWebsiteUrl_eq_empty_of_not_real h, jsOrEmpty]

/-- C3: every record pushed to `excelData` has an empty `Website` column;
a listing classified as having a real business website is never pushed;
and a listing without one (absent or deny-listed website) is pushed, with
`Website = ""` and sentinel enrichment columns. -/
theorem collectListings_retained_without_website :
    (∀ (listings : List ExtractedFields) (r : BusinessRecord),
      r ∈ collectListings listings → r.Website = "") ∧
    (∀ e : ExtractedFields, isRealBusinessWebsite e.website = true →
      processListing e = none) ∧
    (∀ (listings : List ExtractedFields) (e : ExtractedFields),
      isRealBusinessWebsite e.website = false →
      collectListings (listings ++ [e]) = collectListings listings ++
        [{ Name := e.businessName, Address := jsOrEmpty e.address,
           Website := "", Phone := jsOrEmpty e.phone, Email := "Not found",
           ContactPerson := "Not found", BusinessPhone := "Not found",
           Rating := jsOrEmpty e.rating, Hours := jsOrEmpty e.hours,
           PriceLevel := jsOrEmpty e.priceLevel }]) := by
  refine ⟨fun listings r hr => ?_, fun e h => ?_, fun listings e h => ?_⟩
  · obtain ⟨e, _, hpe⟩ := List.mem_filterMap.mp hr
    by_cases hw : isRealBusinessWebsite e.website
    · simp [processListing, hw] at hpe
    · rw [processListing_of_not_real (Bool.eq_false_iff.mpr hw)] at hpe
      cases hpe
      rfl
  · simp [processListing, h]
  · simp [collectListings, List.filterMap_append, processListing_of_not_real h]

/-- Witness for C3: a listing with a real independent website is
discarded, a deny-listed Wolt-link listing is retained with empty
website. -/
theorem collectListings_retained_without_website_witness :
    processListing ⟨"Biz", "Addr 1", "https://www.joesbakery.no/",
      "123", "4.4", "9-17", "$"⟩ = none ∧
    collectListings ([] ++ [⟨"Cafe", "Addr 2", "https://wolt.com/cafe",
      "456", "4.0", "10-20", "$$"⟩]) = collectListings [] ++
      [{ Name := "Cafe", Address := "Addr 2", Website := "", Phone := "456",
         Email := "Not found", ContactPerson := "Not found",
         BusinessPhone := "Not found", Rating := "4.0", Hours := "10-20",
         PriceLevel := "$$" }] :=
  ⟨collectListings_retained_without_website.2.1 _ (by decide),
   collectListings_retained_without_website.2.2 [] _ (by decide)⟩

/-- C1 (the claim fails on the code): an industry yielding zero businesses
on all three retries makes the line-1738 zero-result throw fire, but that
throw is caught by the per-industry `catch` of line 1767, which records a
second error timing entry and continues: the next industry IS processed,
the loop completes, and the run ends without an uncaught error (exit
status 0).  Evaluated at the failing input: industries
`["cryptozoology", "restaurant"]` where the first always returns zero
results and the second returns one business. -/
theorem zero_result_industry_run_continues :
    processAllIndustries ["cryptozoology", "restaurant"]
      (fun idx _retry =>
        if idx = 0 then .ok []
        else .ok [⟨"Joes Bakery", "Street 1", "", "12345678", "Not found",
                   "Not found", "Not found", "4.5", "9-17", ""⟩])
    = ⟨[⟨⟨"Joes Bakery", "Street 1", "", "12345678", "Not found",
          "Not found", "Not found", "4.5", "9-17", ""⟩, "restaurant"⟩],
       [⟨"cryptozoology", some "No results after retries", 0⟩,
        ⟨"cryptozoology",
          some "No results collected for industry: cryptozoology. Process stopped.", 0⟩,
        ⟨"restaurant", none, 1⟩]⟩ := by decide

lemma runSignals_of_shuttingDown (saveOk : Bool) :
    ∀ (n : Nat) (s : ShutdownState), s.isShuttingDown = true →
      runSignals saveOk n s = s := by
  intro n
  induction n with
  | zero => intro s _; rfl
  | succ m ih =>
    intro s h
    rw [runSignals, shutdownHandler, if_pos h]
    exact ih s h

/-- C9: delivering any positive number of interrupt signals produces
exactly one `saveProgress(true)` attempt, the emergency save path exactly
when that attempt fails, and process termination; signals beyond the first
hit the `isShuttingDown` guard and change nothing. -/
theorem shutdown_exactly_one_save (saveOk : Bool) (n : Nat) (hn : 1 ≤ n) :
    runSignals saveOk n initialShutdownState =
      ⟨true, 1, if saveOk then 0 else 1, true⟩ := by
  obtain ⟨m, rfl⟩ : ∃ m, n = m + 1 := ⟨n - 1, by omega⟩
  have h1 : shutdownHandler saveOk initialShutdownState =
      ⟨true, 1, if saveOk then 0 else 1, true⟩ := by
    cases saveOk <;> rfl
  rw [runSignals, h1]
  exact runSignals_of_shuttingDown saveOk m _ rfl

/-- Witness for C9: two signals with a failing checkpoint save — one save
attempt, one emergency fallback, process exited. -/
theorem shutdown_exactly_one_save_witness :
    runSignals false 2 initialShutdownState = ⟨true, 1, 1, true⟩ := by
  have h := shutdown_exactly_one_save false 2 (by omega)
  simpa using h

lemma lt_length_of_getElem?_some {α : Type _} {l : List α} {m : Nat} {a : α}
    (h : l[m]? = some a) : m < l.length := by
  by_contra hh
  rw [List.getElem?_eq_none (by omega)] at h
  exact Option.noConfusion h

lemma set_getElem?_self {α : Type _} {l : List α} {i : Nat} {v : α}
    (h : l[i]? = some v) : l.set i v = l := by
  apply List.ext_getElem?
  intro m
  by_cases hm : m = i
  · subst hm
    rw [List.getElem?_set_self (lt_length_of_getElem?_some h)]
    exact h.symm
  · rw [List.getElem?_set_ne (fun he => hm he.symm)]

lemma applyResult_Name (b : Row) (res : ContactResult) :
    (applyResult b res).Name = b.Name := rfl

lemma applyResult_idem (b : Row) (res : ContactResult) :
    applyResult (applyResult b res) res = applyResult b res := rfl

lemma scrapedUpTo_length (scrape : Nat → ContactResult) (k : Nat) :
    ∀ (i : Nat) (rows : List Row),
      (scrapedUpTo scrape k i rows).length = rows.length := by
  intro i rows
  induction rows generalizing i with
  | nil => rfl
  | cons r rs ih => simp [scrapedUpTo, ih]

lemma scrapedUpTo_getElem? (scrape : Nat → ContactResult) (k : Nat) :
    ∀ (i m : Nat) (rows : List Row),
      (scrapedUpTo scrape k i rows)[m]? =
        (rows[m]?).map
          (fun r => if i + m < k then applyResult r (scrape (i + m)) else r) := by
  intro i m rows
  induction rows generalizing i m with
  | nil => simp [scrapedUpTo]
  | cons r rs ih =>
    cases m with
    | zero => simp [scrapedUpTo]
    | succ m2 =>
      simp only [scrapedUpTo, List.getElem?_cons_succ]
      rw [ih (i + 1) m2]
      have harith : i + 1 + m2 = i + (m2 + 1) := by omega
      rw [harith]

lemma scrapedUpTo_map_name (scrape : Nat → ContactResult) (k : Nat) :
    ∀ (i : Nat) (rows : List Row),
      (scrapedUpTo scrape k i rows).map Row.Name = rows.map Row.Name := by
  intro i rows
  induction rows generalizing i with
  | nil => rfl
  | cons r rs ih =>
    simp only [scrapedUpTo, List.map_cons, ih]
    congr 1
    split <;> rfl

lemma jsFindIndex_nodup :
    ∀ (l : List Row) (nm : String) (i : Nat) (b : Row),
      l[i]? = some b → b.Name = nm → (l.map Row.Name).Nodup →
      jsFindIndex (fun x => x.Name == nm) l = some i := by
  intro l
  induction l with
  | nil => intro nm i b hb _ _; simp at hb
  | cons r rs ih =>
    intro nm i b hb hname hnd
    cases i with
    | zero =>
      rw [List.getElem?_cons_zero] at hb
      cases hb
      have hr : (r.Name == nm) = true := beq_iff_eq.mpr hname
      simp [jsFindIndex, hr]
    | succ i2 =>
      rw [List.getElem?_cons_succ] at hb
      have hmem : nm ∈ rs.map Row.Name :=
        List.mem_map.mpr ⟨b, List.getElem?_mem hb, hname⟩
      have hrne : r.Name ≠ nm := fun he =>
        (List.nodup_cons.mp hnd).1 (he ▸ hmem)
      have hr : (r.Name == nm) = false := by simp [hrne]
      simp only [jsFindIndex, hr, Bool.false_eq_true, if_false]
      rw [ih nm i2 b hb hname (List.nodup_cons.mp hnd).2]
      rfl

lemma enrichIteration_step (rows : List Row) (scrape : Nat → ContactResult)
    (i : Nat) (hnd : (rows.map Row.Name).Nodup)
    (hsent : ∀ r ∈ rows, r.ContactPerson = "Not found")
    (hi : i < rows.length) :
    enrichIteration scrape (scrapedUpTo scrape i 0 rows) i
      = scrapedUpTo scrape (i + 1) 0 rows := by
  obtain ⟨b, hb⟩ : ∃ b, rows[i]? = some b :=
    ⟨rows[i], List.getElem?_eq_getElem hi⟩
  have hlen : (scrapedUpTo scrape i 0 rows).length = rows.length :=
    scrapedUpTo_length scrape i 0 rows
  have hdatai : (scrapedUpTo scrape i 0 rows)[i]? = some b := by
    rw [scrapedUpTo_getElem? scrape i 0 i rows, hb]
    simp
  have hskip : shouldSkip b = false := by
    have := hsent b (List.getElem?_mem hb)
    simp [shouldSkip, this]
  have hd1 : (scrapedUpTo scrape i 0 rows).set i (applyResult b (scrape i))
      = scrapedUpTo scrape (i + 1) 0 rows := by
    apply List.ext_getElem?
    intro m
    by_cases hm : m = i
    · rw [hm]
      rw [List.getElem?_set_self (by rw [hlen]; exact hi),
        scrapedUpTo_getElem? scrape (i + 1) 0 i rows, hb]
      simp
    · rw [List.getElem?_set_ne (fun he => hm he.symm),
        scrapedUpTo_getElem? scrape i 0 m rows,
        scrapedUpTo_getElem? scrape (i + 1) 0 m rows]
      cases hrm : rows[m]? with
      | none => rfl
      | some r =>
        have hcond : (0 + m < i) = (0 + m < i + 1) :=
          propext ⟨fun h => by omega, fun h => by omega⟩
        simp only [Option.map_some', hcond]
  have hd1i : (scrapedUpTo scrape (i + 1) 0 rows)[i]?
      = some (applyResult b (scrape i)) := by
    rw [scrapedUpTo_getElem? scrape (i + 1) 0 i rows, hb]
    simp
  have hfind : jsFindIndex (fun x => x.Name == b.Name)
      (scrapedUpTo scrape (i + 1) 0 rows) = some i :=
    jsFindIndex_nodup _ b.Name i (applyResult b (scrape i)) hd1i
      (applyResult_Name b (scrape i))
      (by rw [scrapedUpTo_map_name]; exact hnd)
  simp only [enrichIteration, hdatai, hskip, Bool.false_eq_true, if_false]
  rw [hd1, hfind]
  show (match (scrapedUpTo scrape (i + 1) 0 rows)[i]? with
    | some b2 => (scrapedUpTo scrape (i + 1) 0 rows).set i (applyResult b2 (scrape i))
    | none => scrapedUpTo scrape (i + 1) 0 rows) = scrapedUpTo scrape (i + 1) 0 rows
  rw [hd1i]
  show (scrapedUpTo scrape (i + 1) 0 rows).set i
      (applyResult (applyResult b (scrape i)) (scrape i))
    = scrapedUpTo scrape (i + 1) 0 rows
  rw [applyResult_idem]
  exact set_getElem?_self hd1i

lemma scrapedUpTo_congr (scrape : Nat → ContactResult) (k1 k2 : Nat)
    (i : Nat) (rows : List Row)
    (h : ∀ m, m < rows.length → (i + m < k1 ↔ i + m < k2)) :
    scrapedUpTo scrape k1 i rows = scrapedUpTo scrape k2 i rows := by
  apply List.ext_getElem?
  intro m
  rw [scrapedUpTo_getElem? scrape k1 i m rows,
    scrapedUpTo_getElem? scrape k2 i m rows]
  cases hrm : rows[m]? with
  | none => rfl
  | some r =>
    have hm : m < rows.length := lt_length_of_getElem?_some hrm
    simp only [Option.map_some', propext (h m hm)]

lemma enrichGo_spec (rows : List Row) (scrape : Nat → ContactResult) (k : Nat)
    (hnd : (rows.map Row.Name).Nodup)
    (hsent : ∀ r ∈ rows, r.ContactPerson = "Not found") :
    ∀ (fuel i : Nat), rows.length ≤ i + fuel → i ≤ k →
      enrichGo scrape k fuel (scrapedUpTo scrape i 0 rows) i
        = scrapedUpTo scrape k 0 rows := by
  intro fuel
  induction fuel with
  | zero =>
    intro i hle hik
    simp only [enrichGo]
    exact scrapedUpTo_congr scrape i k 0 rows (fun m hm => by omega)
  | succ f ih =>
    intro i hle hik
    simp only [enrichGo]
    by_cases hstop : k ≤ i
    · rw [if_pos hstop]
      have hik2 : i = k := le_antisymm hik hstop
      rw [hik2]
    · rw [if_neg hstop]
      by_cases hlen2 : (scrapedUpTo scrape i 0 rows).length ≤ i
      · rw [if_pos hlen2]
        rw [scrapedUpTo_length] at hlen2
        exact scrapedUpTo_congr scrape i k 0 rows (fun m hm => by omega)
      · rw [if_neg hlen2]
        rw [scrapedUpTo_length] at hlen2
        rw [enrichIteration_step rows scrape i hnd hsent (by omega)]
        exact ih (i + 1) (by omega) (by omega)

/-- C4: running the enrichment loop over rows with pairwise-distinct names
and sentinel contact columns, interrupted after fully processing the first
`k` businesses, leaves the persisted `data` array — the content of the
progress workbook written by the per-record `saveProgress()` and by the
shutdown handler's forced save — with the newly scraped contact person and
business phone for rows `1..k` (in input order) and the unmodified
sentinel originals for the remaining rows. -/
theorem enrichment_checkpoint_progress (rows : List Row)
    (scrape : Nat → ContactResult) (k : Nat)
    (hnd : (rows.map Row.Name).Nodup)
    (hsent : ∀ r ∈ rows,
      r.ContactPerson = "Not found" ∧ r.BusinessPhone = "Not found") :
    enrichRun scrape k rows = scrapedUpTo scrape k 0 rows := by
  have h0 : scrapedUpTo scrape 0 0 rows = rows := by
    apply List.ext_getElem?
    intro m
    rw [scrapedUpTo_getElem? scrape 0 0 m rows]
    cases rows[m]? <;> simp
  have hmain := enrichGo_spec rows scrape k hnd (fun r hr => (hsent r hr).1)
    rows.length 0 (by omega) (by omega)
  rw [h0] at hmain
  exact hmain

/-- Witness for C4: two sentinel rows, interrupted after the first —
the persisted array carries the scraped values for row 1 and the sentinel
originals for row 2. -/
theorem enrichment_checkpoint_progress_witness :
    enrichRun (fun i => ⟨"Kari Nordmann", if i = 0 then "11111111" else "22222222"⟩) 1
      [⟨"A", "Not found", "Not found", "", "123"⟩,
       ⟨"B", "Not found", "Not found", "", "456"⟩]
    = scrapedUpTo
        (fun i => ⟨"Kari Nordmann", if i = 0 then "11111111" else "22222222"⟩) 1 0
        [⟨"A", "Not found", "Not found", "", "123"⟩,
         ⟨"B", "Not found", "Not found", "", "456"⟩] :=
  enrichment_checkpoint_progress _ _ 1 (by decide) (by decide)

/-- C10: a row whose contact person and business phone are both present
(non-blank) and differ from the sentinel is skipped unchanged by the
enrichment loop; a row missing either one (sentinel or blank) is
reprocessed with both fields overwritten by the newly scraped result —
possibly writing the sentinel over an existing value — and no other
column modified. -/
theorem enrichment_skip_and_overwrite :
    (∀ (b : Row) (res : ContactResult),
      b.ContactPerson ≠ "Not found" → strTrim b.ContactPerson ≠ "" →
      b.BusinessPhone ≠ "Not found" → strTrim b.BusinessPhone ≠ "" →
      processBusinessRow b res = b) ∧
    (∀ (scrape : Nat → ContactResult) (data : List Row) (i : Nat) (b : Row),
      data[i]? = some b → shouldSkip b = true →
      enrichIteration scrape data i = data) ∧
    (∀ (b : Row) (res : ContactResult),
      b.ContactPerson = "Not found" ∨ b.BusinessPhone = "Not found" ∨
        strTrim b.ContactPerson = "" ∨ strTrim b.BusinessPhone = "" →
      processBusinessRow b res = applyResult b res ∧
      (applyResult b res).ContactPerson = res.contactPerson ∧
      (applyResult b res).BusinessPhone = res.businessPhone ∧
      (applyResult b res).Name = b.Name ∧
      (applyResult b res).Website = b.Website ∧
      (applyResult b res).Phone = b.Phone) := by
  refine ⟨fun b res h1 h2 h3 h4 => ?_, fun scrape data i b hd hskip => ?_,
    fun b res h => ?_⟩
  · have hcp : b.ContactPerson ≠ "" := fun hc => h2 (by rw [hc]; rfl)
    have hbp : b.BusinessPhone ≠ "" := fun hc => h4 (by rw [hc]; rfl)
    have hskip : shouldSkip b = true := by
      simp [shouldSkip, h1, h2, h3, h4, hcp, hbp]
    simp [processBusinessRow, hskip]
  · simp [enrichIteration, hd, hskip]
  · have hskip : shouldSkip b = false := by
      rcases h with h | h | h | h <;> simp [shouldSkip, h]
    exact ⟨by simp [processBusinessRow, applyResult, hskip], rfl, rfl, rfl, rfl, rfl⟩

/-- Witness for C10: a fully filled row is left alone; a row with only the
contact person filled is reprocessed and both fields overwritten. -/
theorem enrichment_skip_and_overwrite_witness :
    processBusinessRow ⟨"A", "Kari Nordmann", "11111111", "w", "p"⟩
      ⟨"Ola Hansen", "22222222"⟩ = ⟨"A", "Kari Nordmann", "11111111", "w", "p"⟩ ∧
    processBusinessRow ⟨"B", "Kari Nordmann", "Not found", "w", "p"⟩
      ⟨"Not found", "33333333"⟩ =
      applyResult ⟨"B", "Kari Nordmann", "Not found", "w", "p"⟩
        ⟨"Not found", "33333333"⟩ :=
  ⟨enrichment_skip_and_overwrite.1 _ _ (by decide) (by decide) (by decide) (by decide),
   (enrichment_skip_and_overwrite.2.2 _ _ (Or.inr (Or.inl (by decide)))).1⟩

end MapsScraper

